import Mathlib

/-!
# cmd/tetra/dump/dump.go

A shallow embedding of the four dump operations of `cmd/tetra/dump/dump.go`
(`dumpExecveMap`, the `dumpProcessCache` callback, `PolicyfilterState`,
`NamespaceState`) over an explicit world (standard output, log, open table
handles), followed by theorems about them.

Go effects are modelled as follows.
* `fmt.Printf` / `fmt.Println` append to `World.stdout`.
* the logger appends a `LogEntry` to `World.log`; a `Fatal` entry ends the
  process (`Exit.fatal`), and deferred calls are then not run.
* a nil pointer dereference ends the run with `Exit.panic`.
* `range` over a Go map visits the entries in an order that is not specified;
  the order is supplied by a `RangeOrder`, which the theorems quantify over.
-/

namespace Dump

/-! ## World -/

/-- Go `error` values, identified by their message. -/
abbrev Err := String

/-- Severity of a log entry. -/
inductive Level where
  | Warn
  | Error
  | Fatal
  deriving DecidableEq

/-- Modelled from the spec: the action selector of the debug protocol
(`tetragon.ConfigFlag`, an int32 enumeration declared in the API package). -/
abbrev ConfigFlag := Int

/-- Modelled from the spec: the selector value of the one defined action,
"dump process cache" (`tetragon.ConfigFlag_CONFIG_FLAG_DUMP_PROCESS_CACHE`). -/
def CONFIG_FLAG_DUMP_PROCESS_CACHE : ConfigFlag := 1

/-- Modelled from the spec: a process record with a reference count
(`tetragon.ProcessInternal`, declared in the API package). -/
structure ProcessInternal where
  pid : Nat
  refcnt : Nat
  deriving DecidableEq

/-- The value attached to a log entry by `WithField`. -/
inductive FieldVal where
  | file (fname : String)
  | flag (f : ConfigFlag)
  | process (p : ProcessInternal)
  deriving DecidableEq

/-- One entry written through `logger.GetLogger()`. -/
structure LogEntry where
  level : Level
  msg : String
  err : Option Err
  field : Option (String × FieldVal)
  deriving DecidableEq

/-- What a run can observe and change. -/
structure World where
  stdout : String
  log : List LogEntry
  handles : List String
  deriving DecidableEq

/-- The world before anything has happened. -/
def World.init : World := ⟨"", [], []⟩

/-- Effect of `fmt.Printf` with the already formatted text. -/
def World.printf (w : World) (s : String) : World :=
  { w with stdout := w.stdout ++ s }

/-- Effect of `fmt.Println`. -/
def World.println (w : World) (s : String) : World :=
  w.printf (s ++ "\n")

/-- Effect of writing a log entry. -/
def World.logf (w : World) (e : LogEntry) : World :=
  { w with log := w.log ++ [e] }

/-- Effect of a successful open of the table at `fname`. -/
def World.opened (w : World) (fname : String) : World :=
  { w with handles := fname :: w.handles }

/-- Effect of `m.Close()` on the handle of `fname`. -/
def World.closed (w : World) (fname : String) : World :=
  { w with handles := w.handles.erase fname }

/-- How a run ends: a normal return, `Fatal` (process exit), or a runtime panic. -/
inductive Exit (α : Type) where
  | returned (a : α)
  | fatal
  | panic
  deriving DecidableEq

/-- Concatenation of the chunks written by successive prints. -/
def concat : List String → String
  | [] => ""
  | s :: rest => s ++ concat rest

/-! ## Go maps -/

/-- A Go `map[K]V`: entries with pairwise distinct keys. -/
structure GoMap (K V : Type) [DecidableEq K] where
  entries : List (K × V)
  nodup : (entries.map Prod.fst).Nodup

section GoMapOps
variable {K V : Type} [DecidableEq K]

/-- The map built by `make(map[K]V)`. -/
def GoMap.empty : GoMap K V := ⟨[], List.nodup_nil⟩

/-- The keys of the map. -/
def GoMap.keys (m : GoMap K V) : List K := m.entries.map Prod.fst

/-- Number of entries, `len(m)`. -/
def GoMap.len (m : GoMap K V) : Nat := m.entries.length

/-- Assignment `m[k] = v`: an existing entry for `k` is replaced. -/
def GoMap.set (m : GoMap K V) (k : K) (v : V) : GoMap K V :=
  ⟨m.entries.filter (fun e => decide (e.1 ≠ k)) ++ [(k, v)], by
    rw [List.map_append, List.nodup_append]
    refine ⟨(m.nodup.sublist ((List.filter_sublist _).map _)), by simp, ?_⟩
    intro a ha hb
    simp only [List.map_cons, List.map_nil, List.mem_singleton] at hb
    subst hb
    simp at ha⟩

end GoMapOps

/-- The order in which a `range` over a Go map visits the entries. The language
leaves it unspecified, and it may differ from one `range` statement to the
next: `perm n l` is the order of the `n`-th `range` executed in a run. -/
structure RangeOrder where
  perm : (α : Type) → Nat → List α → List α
  isPerm : ∀ (α : Type) (n : Nat) (l : List α), (perm α n l).Perm l

/-- Visit the entries in the stored order. -/
def RangeOrder.id : RangeOrder := ⟨fun _ _ l => l, fun _ _ _ => List.Perm.refl _⟩

/-- Visit the entries in the opposite of the stored order. -/
def RangeOrder.rev : RangeOrder := ⟨fun _ _ l => l.reverse, fun _ _ l => List.reverse_perm l⟩

/-! ## Pinned tables -/

/-- A pinned table as seen through `m.Iterate()`: the pairs for which
`iter.Next` returns true, in order, and the value of `iter.Err()` once `Next`
has returned false. -/
structure Table (K V : Type) where
  yields : List (K × V)
  err : Option Err

/-- The result of `ebpf.LoadPinnedMap` for each path. -/
abbrev Bpffs (K V : Type) := String → Except Err (Table K V)

/-- Policy identifier (uint32). -/
abbrev PolicyID := Nat

/-- Cgroup identifier (uint64). -/
abbrev CgroupID := Nat

/-- Modelled from the spec: the policy-filter table handle (`policyfilter.PfMap`,
declared in the policyfilter package) as seen through `m.Dump()`, which returns
the state, a mapping from policy id to a set of cgroup ids, or an error. -/
structure PfMap where
  dump : Except Err (GoMap PolicyID (GoMap CgroupID Unit))

/-- Modelled from the spec: the result of `policyfilter.OpenMap` for each path. -/
abbrev PfFs := String → Except Err PfMap

/-! ## dumpExecveMap -/

section Execve
variable {K V : Type} [DecidableEq K]

/-- The loop `for iter.Next(&key, &val) { data[key] = val }`. -/
def collect (data : GoMap K V) : List (K × V) → GoMap K V
  | [] => data
  | (key, val) :: rest => collect (data.set key val) rest

/-- The loop `for k, v := range data { fmt.Printf("%d %+v\n", k, v) }` over the
entries in visiting order; `fmtKey` is `%d` on the key type and `fmtVal` is
`%+v` on the value type. -/
def printExecve (fmtKey : K → String) (fmtVal : V → String) (w : World) :
    List (K × V) → World
  | [] => w
  | (k, v) :: rest =>
    printExecve fmtKey fmtVal (w.printf (fmtKey k ++ " " ++ fmtVal v ++ "\n")) rest

/-- The function `dumpExecveMap(fname)`. -/
def dumpExecveMap (fmtKey : K → String) (fmtVal : V → String) (fs : Bpffs K V)
    (ord : RangeOrder) (fname : String) (w : World) : Exit Unit × World :=
  match fs fname with
  | .error err =>
    (.fatal, w.logf ⟨.Fatal, "failed to open execve map", some err, none⟩)
  | .ok m =>
    let w := w.opened fname
    let data := collect (GoMap.empty : GoMap K V) m.yields
    match m.err with
    | some err =>
      (.fatal, w.logf ⟨.Fatal, "error iterating execve map", some err, none⟩)
    | none =>
      if data.len = 0 then
        (.returned (), w.printf "(empty)")
      else
        (.returned (), printExecve fmtKey fmtVal w (ord.perm _ 0 data.entries))

end Execve

/-! ## dumpProcessCache -/

/-- Modelled from the spec: the argument of the "dump process cache" action
(`tetragon.DumpProcessCacheArgs`). -/
structure DumpProcessCacheArgs where
  SkipZeroRefCnt : Bool
  deriving DecidableEq

/-- Modelled from the spec: the request of the debug protocol, a selector and
one action-specific argument (`tetragon.GetDebugRequest`); the argument is a
pointer and may be nil. -/
structure GetDebugRequest where
  Flag : ConfigFlag
  Arg : Option DumpProcessCacheArgs
  deriving DecidableEq

/-- Modelled from the spec: the payload of "dump process cache", a sequence of
process records (`tetragon.DumpProcessCacheReponse`). -/
structure DumpProcessCacheReponse where
  Processes : List ProcessInternal
  deriving DecidableEq

/-- Modelled from the spec: the payload variants of a response (the oneof of
`tetragon.GetDebugResponse`); the process-list variant holds a pointer, which
may be nil. -/
inductive ResponsePayload where
  | level (l : Int)
  | processes (p : Option DumpProcessCacheReponse)
  deriving DecidableEq

/-- Modelled from the spec: the response of the debug protocol, the echoed
selector and at most one payload (`tetragon.GetDebugResponse`). -/
structure GetDebugResponse where
  Flag : ConfigFlag
  Res : Option ResponsePayload
  deriving DecidableEq

/-- Modelled from the spec: the accessor `GetProcesses()` of the response
(generated code of the API package), the process-list payload when the response
carries that variant, nil when the payload is absent or is another variant. -/
def GetDebugResponse.GetProcesses (x : GetDebugResponse) : Option DumpProcessCacheReponse :=
  match x.Res with
  | some (.processes p) => p
  | _ => none

/-- Modelled from the spec: the synchronous debug channel to the agent
(`tetragon.FineGuidanceSensorsClient`, declared in the API package);
`cli.GetDebug(ctx, &req)` returns a response pointer (nil on failure) and an
error. -/
abbrev FineGuidanceSensorsClient := GetDebugRequest → Option GetDebugResponse × Option Err

/-- The loop over `res.GetProcesses().Processes`: print the records that
marshal, log the others. -/
def printProcesses (MarshalJSON : ProcessInternal → Except Err String) (w : World) :
    List ProcessInternal → World
  | [] => w
  | p :: rest =>
    match MarshalJSON p with
    | .ok s => printProcesses MarshalJSON (w.println s) rest
    | .error err =>
      printProcesses MarshalJSON
        (w.logf ⟨.Error, "failed to marshal process", some err, some ("process", .process p)⟩) rest

/-- The request built by the callback. -/
def mkRequest (skipZeroRefCnt : Bool) : GetDebugRequest :=
  { Flag := CONFIG_FLAG_DUMP_PROCESS_CACHE, Arg := some { SkipZeroRefCnt := skipZeroRefCnt } }

/-- The part of the callback after `cli.GetDebug` has returned `res`. -/
def handleResponse (MarshalJSON : ProcessInternal → Except Err String)
    (res : Option GetDebugResponse) (w : World) : Exit Unit × World :=
  match res with
  | none => (.panic, w)
  | some r =>
    if r.Flag = CONFIG_FLAG_DUMP_PROCESS_CACHE then
      match r.GetProcesses with
      | none => (.panic, w)
      | some d => (.returned (), printProcesses MarshalJSON w d.Processes)
    else
      (.returned (),
        w.logf ⟨.Error, "unexpected response flag", none, some ("flag", .flag r.Flag)⟩)

/-- The callback passed to `common.CliRun` by `dumpProcessCache`. -/
def dumpProcessCache (MarshalJSON : ProcessInternal → Except Err String)
    (skipZeroRefCnt : Bool) (cli : FineGuidanceSensorsClient) (w : World) : Exit Unit × World :=
  let req := mkRequest skipZeroRefCnt
  let res := (cli req).1
  handleResponse MarshalJSON res w

/-! ## PolicyfilterState -/

/-- The loop `for id := range cgIDs { ids = append(ids, strconv.FormatUint(uint64(id), 10)) }`
over the members in visiting order. -/
def formatIds : List (CgroupID × Unit) → List String
  | [] => []
  | (id, _) :: rest => Nat.repr id :: formatIds rest

/-- The loop `for polId, cgIDs := range data` over the entries in visiting order;
`n` counts the `range` statements executed so far. -/
def printPolicies (ord : RangeOrder) (w : World) (n : Nat) :
    List (PolicyID × GoMap CgroupID Unit) → World
  | [] => w
  | (polId, cgIDs) :: rest =>
    let ids := formatIds (ord.perm _ n cgIDs.entries)
    printPolicies ord (w.printf (Nat.repr polId ++ ": " ++ ",".intercalate ids ++ "\n"))
      (n + 1) rest

/-- The function `PolicyfilterState(fname)`. -/
def PolicyfilterState (fs : PfFs) (ord : RangeOrder) (fname : String) (w : World) :
    Exit Unit × World :=
  match fs fname with
  | .error err =>
    (.fatal, w.logf ⟨.Fatal, "Failed to open policyfilter map", some err, none⟩)
  | .ok m =>
    let w := w.opened fname
    match m.dump with
    | .error err =>
      (.fatal, w.logf ⟨.Fatal, "Failed to open policyfilter map", some err, none⟩)
    | .ok data =>
      if data.len = 0 then
        (.returned (), (w.printf "(empty)\n").closed fname)
      else
        (.returned (), (printPolicies ord w 1 (ord.perm _ 0 data.entries)).closed fname)

/-! ## NamespaceState -/

/-- The loop `for iter.Next(&key, &val) { fmt.Printf("%d: %d\n", key, val) }`. -/
def printPairs (w : World) : List (Nat × Nat) → World
  | [] => w
  | (key, val) :: rest =>
    printPairs (w.printf (Nat.repr key ++ ": " ++ Nat.repr val ++ "\n")) rest

/-- The function `NamespaceState(fname)`; the result is the returned `error`. -/
def NamespaceState (fs : Bpffs Nat Nat) (fname : String) (w : World) :
    Exit (Option Err) × World :=
  match fs fname with
  | .error err =>
    (.returned (some err),
      w.logf ⟨.Warn, "Could not open process tree map", some err, some ("file", .file fname)⟩)
  | .ok m =>
    let w := w.opened fname
    let w := w.printf "cgroupId: stableId\n"
    let w := printPairs w m.yields
    (.returned none, w.closed fname)

/-! ## Specification-side vocabulary -/

/-- The line printed for a record that marshals, none for one that does not. -/
def jsonLine (MarshalJSON : ProcessInternal → Except Err String) (p : ProcessInternal) :
    Option String :=
  match MarshalJSON p with
  | .ok s => some (s ++ "\n")
  | .error _ => none

/-- The log entry written for a record that does not marshal, none for one that does. -/
def marshalFailure (MarshalJSON : ProcessInternal → Except Err String) (p : ProcessInternal) :
    Option LogEntry :=
  match MarshalJSON p with
  | .ok _ => none
  | .error err => some ⟨.Error, "failed to marshal process", some err, some ("process", .process p)⟩

/-- The data line of the execve dump for one entry. -/
def execveLine {K V : Type} (fmtKey : K → String) (fmtVal : V → String) (e : K × V) : String :=
  fmtKey e.1 ++ " " ++ fmtVal e.2 ++ "\n"

/-- The data line of the namespace dump for one pair. -/
def pairLine (e : Nat × Nat) : String :=
  Nat.repr e.1 ++ ": " ++ Nat.repr e.2 ++ "\n"

/-- The line of the policy-filter dump for policy `polId` with its members listed
in the order `ids`. -/
def policyLine (polId : PolicyID) (ids : List CgroupID) : String :=
  Nat.repr polId ++ ": " ++ ",".intercalate (ids.map Nat.repr) ++ "\n"

/-- The client-side filter of the spec, "drop records whose reference count equals
zero"; the source has no function of this kind. -/
def specSkipZeroRefCnt (ps : List ProcessInternal) : List ProcessInternal :=
  ps.filter (fun p => decide (p.refcnt ≠ 0))

/-- The pair `(k, v)` is the last one the iterator yields for the key `k`. -/
def IsLastYield {K V : Type} (ys : List (K × V)) (k : K) (v : V) : Prop :=
  ∃ pre post, ys = pre ++ (k, v) :: post ∧ ∀ e ∈ post, e.1 ≠ k

/-! ## Lemmas on the print loops -/

@[simp] theorem printf_stdout (w : World) (s : String) : (w.printf s).stdout = w.stdout ++ s := rfl
@[simp] theorem printf_log (w : World) (s : String) : (w.printf s).log = w.log := rfl
@[simp] theorem printf_handles (w : World) (s : String) : (w.printf s).handles = w.handles := rfl
@[simp] theorem logf_stdout (w : World) (e : LogEntry) : (w.logf e).stdout = w.stdout := rfl
@[simp] theorem logf_log (w : World) (e : LogEntry) : (w.logf e).log = w.log ++ [e] := rfl
@[simp] theorem logf_handles (w : World) (e : LogEntry) : (w.logf e).handles = w.handles := rfl
@[simp] theorem opened_stdout (w : World) (f : String) : (w.opened f).stdout = w.stdout := rfl
@[simp] theorem opened_log (w : World) (f : String) : (w.opened f).log = w.log := rfl
@[simp] theorem opened_handles (w : World) (f : String) :
    (w.opened f).handles = f :: w.handles := rfl
@[simp] theorem closed_stdout (w : World) (f : String) : (w.closed f).stdout = w.stdout := rfl
@[simp] theorem closed_log (w : World) (f : String) : (w.closed f).log = w.log := rfl
@[simp] theorem closed_handles (w : World) (f : String) :
    (w.closed f).handles = w.handles.erase f := rfl

@[simp] theorem concat_nil : concat [] = "" := rfl
@[simp] theorem concat_cons (s : String) (l : List String) : concat (s :: l) = s ++ concat l := rfl

theorem printExecve_stdout {K V : Type} (fmtKey : K → String) (fmtVal : V → String)
    (es : List (K × V)) (w : World) :
    (printExecve fmtKey fmtVal w es).stdout
      = w.stdout ++ concat (es.map (execveLine fmtKey fmtVal)) := by
  induction es generalizing w with
  | nil => simp [printExecve]
  | cons e rest ih =>
    obtain ⟨k, v⟩ := e
    simp [printExecve, ih, execveLine, String.append_assoc]

theorem printExecve_log_handles {K V : Type} (fmtKey : K → String) (fmtVal : V → String)
    (es : List (K × V)) (w : World) :
    (printExecve fmtKey fmtVal w es).log = w.log
      ∧ (printExecve fmtKey fmtVal w es).handles = w.handles := by
  induction es generalizing w with
  | nil => simp [printExecve]
  | cons e rest ih =>
    obtain ⟨k, v⟩ := e
    simp [printExecve, ih]

theorem printProcesses_stdout (M : ProcessInternal → Except Err String)
    (ps : List ProcessInternal) (w : World) :
    (printProcesses M w ps).stdout = w.stdout ++ concat (ps.filterMap (jsonLine M)) := by
  induction ps generalizing w with
  | nil => simp [printProcesses]
  | cons p rest ih =>
    cases h : M p with
    | ok s => simp [printProcesses, h, ih, jsonLine, World.println, String.append_assoc]
    | error e => simp [printProcesses, h, ih, jsonLine]

theorem printProcesses_log (M : ProcessInternal → Except Err String)
    (ps : List ProcessInternal) (w : World) :
    (printProcesses M w ps).log = w.log ++ ps.filterMap (marshalFailure M) := by
  induction ps generalizing w with
  | nil => simp [printProcesses]
  | cons p rest ih =>
    cases h : M p with
    | ok s => simp [printProcesses, h, ih, marshalFailure, World.println]
    | error e => simp [printProcesses, h, ih, marshalFailure]

theorem printProcesses_handles (M : ProcessInternal → Except Err String)
    (ps : List ProcessInternal) (w : World) :
    (printProcesses M w ps).handles = w.handles := by
  induction ps generalizing w with
  | nil => simp [printProcesses]
  | cons p rest ih =>
    cases h : M p with
    | ok s => simp [printProcesses, h, ih, World.println]
    | error e => simp [printProcesses, h, ih]

theorem printPairs_stdout (es : List (Nat × Nat)) (w : World) :
    (printPairs w es).stdout = w.stdout ++ concat (es.map pairLine) := by
  induction es generalizing w with
  | nil => simp [printPairs]
  | cons e rest ih =>
    obtain ⟨k, v⟩ := e
    simp [printPairs, ih, pairLine, String.append_assoc]

theorem printPairs_log_handles (es : List (Nat × Nat)) (w : World) :
    (printPairs w es).log = w.log ∧ (printPairs w es).handles = w.handles := by
  induction es generalizing w with
  | nil => simp [printPairs]
  | cons e rest ih =>
    obtain ⟨k, v⟩ := e
    simp [printPairs, ih]

theorem formatIds_eq (l : List (CgroupID × Unit)) :
    formatIds l = (l.map Prod.fst).map Nat.repr := by
  induction l with
  | nil => rfl
  | cons e rest ih =>
    obtain ⟨id, u⟩ := e
    simp [formatIds, ih]

theorem printPolicies_log_handles (ord : RangeOrder)
    (es : List (PolicyID × GoMap CgroupID Unit)) (n : Nat) (w : World) :
    (printPolicies ord w n es).log = w.log ∧ (printPolicies ord w n es).handles = w.handles := by
  induction es generalizing w n with
  | nil => simp [printPolicies]
  | cons e rest ih =>
    obtain ⟨p, cg⟩ := e
    simp [printPolicies, ih]

theorem printPolicies_stdout (ord : RangeOrder)
    (es : List (PolicyID × GoMap CgroupID Unit)) (n : Nat) (w : World) :
    ∃ lines : List String,
      (printPolicies ord w n es).stdout = w.stdout ++ concat lines
        ∧ List.Forall₂
            (fun (e : PolicyID × GoMap CgroupID Unit) (line : String) =>
              ∃ ids : List CgroupID, ids.Perm e.2.keys ∧ ids.Nodup ∧ line = policyLine e.1 ids)
            es lines := by
  induction es generalizing w n with
  | nil => exact ⟨[], by simp [printPolicies], List.Forall₂.nil⟩
  | cons e rest ih =>
    obtain ⟨p, cg⟩ := e
    obtain ⟨lines, h1, h2⟩ := ih (n + 1)
      (w.printf (Nat.repr p ++ ": "
        ++ ",".intercalate (formatIds (ord.perm _ n cg.entries)) ++ "\n"))
    have hperm : ((ord.perm _ n cg.entries).map Prod.fst).Perm cg.keys :=
      (ord.isPerm _ n cg.entries).map Prod.fst
    refine ⟨policyLine p ((ord.perm _ n cg.entries).map Prod.fst) :: lines, ?_,
      List.Forall₂.cons ⟨_, hperm, hperm.nodup_iff.mpr cg.nodup, rfl⟩ h2⟩
    simp only [formatIds_eq, String.append_assoc, printf_stdout] at h1
    simp only [printPolicies, formatIds_eq, String.append_assoc, concat_cons, policyLine]
    exact h1

theorem perm_pair {α : Type} {a b : α} {l : List α} (h : l.Perm [a, b]) :
    l = [a, b] ∨ l = [b, a] := by
  match l, h with
  | [x, y], h =>
    by_cases hx : x = a
    · subst hx
      have := List.perm_singleton.mp (List.Perm.cons_inv h)
      left; rw [this]
    · have hxb : x = b := by
        have : x ∈ [a, b] := h.subset (List.mem_cons_self _ _)
        simp at this
        rcases this with h1 | h1
        · exact absurd h1 hx
        · exact h1
      subst hxb
      have h2 : [x, y].Perm [x, a] := h.trans (List.Perm.swap _ _ _)
      have := List.perm_singleton.mp (List.Perm.cons_inv h2)
      right; rw [this]
  | [], h => exact absurd h.length_eq (by simp)
  | [_], h => exact absurd h.length_eq (by simp)
  | _ :: _ :: _ :: _, h => exact absurd h.length_eq (by simp)

/-! ## Lemmas on the collected map -/

section CollectLemmas
variable {K V : Type}

theorem set_mem [DecidableEq K] (m : GoMap K V) (k : K) (v : V) (e : K × V) :
    e ∈ (m.set k v).entries ↔ (e.1 ≠ k ∧ e ∈ m.entries) ∨ e = (k, v) := by
  simp [GoMap.set, List.mem_filter, and_comm]

theorem isLastYield_nil (k : K) (v : V) : ¬ IsLastYield ([] : List (K × V)) k v := by
  rintro ⟨pre, post, h, -⟩
  cases pre <;> simp at h

theorem isLastYield_cons (e : K × V) (rest : List (K × V)) (k : K) (v : V) :
    IsLastYield (e :: rest) k v
      ↔ IsLastYield rest k v ∨ (e = (k, v) ∧ ∀ x ∈ rest, x.1 ≠ k) := by
  constructor
  · rintro ⟨pre, post, h, hpost⟩
    cases pre with
    | nil =>
      simp only [List.nil_append, List.cons.injEq] at h
      right
      exact ⟨h.1, h.2 ▸ hpost⟩
    | cons p pre =>
      simp only [List.cons_append, List.cons.injEq] at h
      left
      exact ⟨pre, post, h.2, hpost⟩
  · rintro (⟨pre, post, h, hpost⟩ | ⟨h, hrest⟩)
    · exact ⟨e :: pre, post, by simp [h], hpost⟩
    · exact ⟨[], rest, by simp [h], hrest⟩

theorem isLastYield_mem {ys : List (K × V)} {k : K} {v : V} (h : IsLastYield ys k v) :
    (k, v) ∈ ys := by
  obtain ⟨pre, post, h, -⟩ := h
  simp [h]

theorem collect_mem [DecidableEq K] (ys : List (K × V)) (d : GoMap K V) (k : K) (v : V) :
    (k, v) ∈ (collect d ys).entries
      ↔ IsLastYield ys k v ∨ ((∀ x ∈ ys, x.1 ≠ k) ∧ (k, v) ∈ d.entries) := by
  induction ys generalizing d with
  | nil => simp [collect, isLastYield_nil]
  | cons e rest ih =>
    obtain ⟨k0, v0⟩ := e
    simp only [collect, ih, set_mem, isLastYield_cons, List.mem_cons, forall_eq_or_imp,
      Prod.mk.injEq]
    constructor
    · rintro (h | ⟨hr, (⟨hne, hd⟩ | ⟨hk, hv⟩)⟩)
      · exact Or.inl (Or.inl h)
      · exact Or.inr ⟨⟨fun h => hne h.symm, hr⟩, hd⟩
      · exact Or.inl (Or.inr ⟨⟨hk.symm, hv.symm⟩, hr⟩)
    · rintro ((h | ⟨⟨hk, hv⟩, hr⟩) | ⟨⟨hne, hr⟩, hd⟩)
      · exact Or.inl h
      · exact Or.inr ⟨hr, Or.inr ⟨hk.symm, hv.symm⟩⟩
      · exact Or.inr ⟨hr, Or.inl ⟨fun h => hne h.symm, hd⟩⟩

theorem collect_empty_mem [DecidableEq K] (ys : List (K × V)) (k : K) (v : V) :
    (k, v) ∈ (collect (GoMap.empty : GoMap K V) ys).entries ↔ IsLastYield ys k v := by
  rw [collect_mem]
  simp [GoMap.empty]

theorem exists_isLastYield_of_mem_keys (ys : List (K × V)) (k : K)
    (h : k ∈ ys.map Prod.fst) : ∃ v, IsLastYield ys k v := by
  induction ys with
  | nil => simp at h
  | cons e rest ih =>
    by_cases hk : k ∈ rest.map Prod.fst
    · obtain ⟨v, hv⟩ := ih hk
      exact ⟨v, (isLastYield_cons _ _ _ _).mpr (Or.inl hv)⟩
    · have he : e.1 = k := by
        simp only [List.map_cons, List.mem_cons] at h
        rcases h with h | h
        · exact h.symm
        · exact absurd h hk
      refine ⟨e.2, (isLastYield_cons _ _ _ _).mpr (Or.inr ⟨by rw [← he], ?_⟩)⟩
      intro x hx hxk
      exact hk (List.mem_map.mpr ⟨x, hx, hxk⟩)

theorem isLastYield_iff_mem_of_nodup (ys : List (K × V)) (hnd : (ys.map Prod.fst).Nodup)
    (k : K) (v : V) : IsLastYield ys k v ↔ (k, v) ∈ ys := by
  refine ⟨isLastYield_mem, fun h => ?_⟩
  induction ys with
  | nil => simp at h
  | cons e rest ih =>
    rw [List.map_cons, List.nodup_cons] at hnd
    rw [isLastYield_cons]
    rcases List.mem_cons.mp h with h | h
    · right
      refine ⟨h.symm, fun x hx hxk => hnd.1 ?_⟩
      rw [← h]
      exact List.mem_map.mpr ⟨x, hx, hxk⟩
    · exact Or.inl (ih hnd.2 h)

end CollectLemmas

/-! ## Lemmas on the spec-side refcount filter -/

theorem string_append_left_cancel {a b c : String} (h : a ++ b = a ++ c) : b = c := by
  have hd := congrArg String.data h
  simp only [String.data_append] at hd
  exact String.ext (List.append_cancel_left hd)

theorem jsonLine_length_pos (M : ProcessInternal → Except Err String) (p : ProcessInternal)
    (line : String) (h : jsonLine M p = some line) : 0 < line.length := by
  unfold jsonLine at h
  cases hm : M p with
  | ok s =>
    rw [hm] at h
    simp only [Option.some.injEq] at h
    rw [← h, String.length_append]
    exact Nat.lt_of_lt_of_le (by decide) (Nat.le_add_left _ _)
  | error e =>
    rw [hm] at h
    cases h

theorem concat_skipZero_length_le (M : ProcessInternal → Except Err String)
    (ps : List ProcessInternal) :
    (concat ((specSkipZeroRefCnt ps).filterMap (jsonLine M))).length
      ≤ (concat (ps.filterMap (jsonLine M))).length := by
  induction ps with
  | nil => exact Nat.le_refl _
  | cons p rest ih =>
    unfold specSkipZeroRefCnt at ih ⊢
    by_cases hz : p.refcnt = 0
    · rw [List.filter_cons_of_neg (by simpa using hz)]
      cases hj : jsonLine M p with
      | none => rw [List.filterMap_cons_none hj]; exact ih
      | some line =>
        rw [List.filterMap_cons_some hj, concat_cons, String.length_append]
        exact Nat.le_trans ih (Nat.le_add_left _ _)
    · rw [List.filter_cons_of_pos (by simpa using hz)]
      cases hj : jsonLine M p with
      | none => rw [List.filterMap_cons_none hj, List.filterMap_cons_none hj]; exact ih
      | some line =>
        rw [List.filterMap_cons_some hj, List.filterMap_cons_some hj, concat_cons, concat_cons,
          String.length_append, String.length_append]
        exact Nat.add_le_add_left ih _

theorem concat_skipZero_eq_iff (M : ProcessInternal → Except Err String)
    (ps : List ProcessInternal) :
    concat (ps.filterMap (jsonLine M)) = concat ((specSkipZeroRefCnt ps).filterMap (jsonLine M))
      ↔ ∀ p ∈ ps, p.refcnt = 0 → jsonLine M p = none := by
  induction ps with
  | nil => simp [specSkipZeroRefCnt]
  | cons p rest ih =>
    have hle := concat_skipZero_length_le M rest
    unfold specSkipZeroRefCnt at ih hle ⊢
    rw [List.forall_mem_cons]
    by_cases hz : p.refcnt = 0
    · rw [List.filter_cons_of_neg (by simpa using hz)]
      cases hj : jsonLine M p with
      | none =>
        rw [List.filterMap_cons_none hj, ih]
        exact ⟨fun h => ⟨fun _ => rfl, h⟩, fun h => h.2⟩
      | some line =>
        rw [List.filterMap_cons_some hj, concat_cons]
        constructor
        · intro h
          have hl := congrArg String.length h
          rw [String.length_append] at hl
          have hpos := jsonLine_length_pos M p line hj
          omega
        · intro h
          exact absurd (h.1 hz) (by simp)
    · rw [List.filter_cons_of_pos (by simpa using hz)]
      cases hj : jsonLine M p with
      | none =>
        rw [List.filterMap_cons_none hj, List.filterMap_cons_none hj, ih]
        exact ⟨fun h => ⟨fun h0 => absurd h0 hz, h⟩, fun h => h.2⟩
      | some line =>
        rw [List.filterMap_cons_some hj, List.filterMap_cons_some hj, concat_cons, concat_cons]
        constructor
        · intro h
          exact ⟨fun h0 => absurd h0 hz, ih.mp (string_append_left_cancel h)⟩
        · intro h
          rw [ih.mpr h.2]

theorem jsonLine_eq_none_iff (M : ProcessInternal → Except Err String) (p : ProcessInternal) :
    jsonLine M p = none ↔ ∃ err, M p = .error err := by
  unfold jsonLine
  cases M p with
  | ok s => simp
  | error e => simp

/-! ## The debug query: selector check and per-record isolation -/

/-- C1: in the dumpProcessCache callback, when the debug call returns a response
whose Flag differs from CONFIG_FLAG_DUMP_PROCESS_CACHE, the run returns normally
after appending exactly one "unexpected response flag" error entry to the log,
standard output is left as it was (zero records printed), and the outcome is the
same for every payload the response may carry: the payload is never read. -/
theorem C1_mismatched_flag_logs_and_prints_nothing
    (MarshalJSON : ProcessInternal → Except Err String) (skipZeroRefCnt : Bool)
    (cli : FineGuidanceSensorsClient) (r : GetDebugResponse) (w : World)
    (hres : (cli (mkRequest skipZeroRefCnt)).1 = some r)
    (hflag : r.Flag ≠ CONFIG_FLAG_DUMP_PROCESS_CACHE) :
    dumpProcessCache MarshalJSON skipZeroRefCnt cli w
        = (.returned (),
            w.logf ⟨.Error, "unexpected response flag", none, some ("flag", .flag r.Flag)⟩)
      ∧ (dumpProcessCache MarshalJSON skipZeroRefCnt cli w).2.stdout = w.stdout
      ∧ ∀ payload : Option ResponsePayload,
          dumpProcessCache MarshalJSON skipZeroRefCnt (fun _ => (some ⟨r.Flag, payload⟩, none)) w
            = dumpProcessCache MarshalJSON skipZeroRefCnt cli w := by
  have h : dumpProcessCache MarshalJSON skipZeroRefCnt cli w
      = (.returned (),
          w.logf ⟨.Error, "unexpected response flag", none, some ("flag", .flag r.Flag)⟩) := by
    simp only [dumpProcessCache, hres, handleResponse, if_neg hflag]
  refine ⟨h, ?_, ?_⟩
  · rw [h]; rfl
  · intro payload
    rw [h]
    simp only [dumpProcessCache, handleResponse, if_neg hflag]

/-- C1 at a concrete response: selector 0 with a process-list payload. -/
theorem C1_mismatched_flag_witness :
    dumpProcessCache (fun p => .ok (Nat.repr p.pid)) false
        (fun _ => (some ⟨0, some (.processes (some ⟨[⟨1, 1⟩]⟩))⟩, none)) World.init
        = (.returned (),
            World.init.logf ⟨.Error, "unexpected response flag", none, some ("flag", .flag 0)⟩)
      ∧ (dumpProcessCache (fun p => .ok (Nat.repr p.pid)) false
          (fun _ => (some ⟨0, some (.processes (some ⟨[⟨1, 1⟩]⟩))⟩, none)) World.init).2.stdout
          = World.init.stdout
      ∧ ∀ payload : Option ResponsePayload,
          dumpProcessCache (fun p => .ok (Nat.repr p.pid)) false
              (fun _ => (some ⟨0, payload⟩, none)) World.init
            = dumpProcessCache (fun p => .ok (Nat.repr p.pid)) false
              (fun _ => (some ⟨0, some (.processes (some ⟨[⟨1, 1⟩]⟩))⟩, none)) World.init :=
  C1_mismatched_flag_logs_and_prints_nothing (fun p => .ok (Nat.repr p.pid)) false
    (fun _ => (some ⟨0, some (.processes (some ⟨[⟨1, 1⟩]⟩))⟩, none))
    ⟨0, some (.processes (some ⟨[⟨1, 1⟩]⟩))⟩ World.init rfl (by decide)

/-- C2: in the dumpProcessCache callback, for a response with the matching
selector and process list ps, the run returns normally, what is appended to
standard output is exactly, in list order, one line (the serialized text and a
newline) per element of ps whose MarshalJSON succeeds, what is appended to the
log is exactly one error entry per element whose MarshalJSON fails, and the line
of every successful element is among the printed lines wherever the failing
elements stand. -/
theorem C2_records_printed_in_order_failures_skipped
    (MarshalJSON : ProcessInternal → Except Err String) (skipZeroRefCnt : Bool)
    (cli : FineGuidanceSensorsClient) (r : GetDebugResponse) (ps : List ProcessInternal)
    (w : World)
    (hres : (cli (mkRequest skipZeroRefCnt)).1 = some r)
    (hflag : r.Flag = CONFIG_FLAG_DUMP_PROCESS_CACHE)
    (hps : r.Res = some (.processes (some ⟨ps⟩))) :
    (dumpProcessCache MarshalJSON skipZeroRefCnt cli w).1 = .returned ()
      ∧ (dumpProcessCache MarshalJSON skipZeroRefCnt cli w).2.stdout
          = w.stdout ++ concat (ps.filterMap (jsonLine MarshalJSON))
      ∧ (dumpProcessCache MarshalJSON skipZeroRefCnt cli w).2.log
          = w.log ++ ps.filterMap (marshalFailure MarshalJSON)
      ∧ (∀ p s, p ∈ ps → MarshalJSON p = .ok s →
          (s ++ "\n") ∈ ps.filterMap (jsonLine MarshalJSON))
      ∧ (ps.filterMap (jsonLine MarshalJSON)).length
          = (ps.filter (fun p => (MarshalJSON p).toBool)).length := by
  have hg : r.GetProcesses = some ⟨ps⟩ := by simp [GetDebugResponse.GetProcesses, hps]
  have h : dumpProcessCache MarshalJSON skipZeroRefCnt cli w
      = (.returned (), printProcesses MarshalJSON w ps) := by
    simp only [dumpProcessCache, hres, handleResponse, if_pos hflag, hg]
  refine ⟨by rw [h], by rw [h]; exact printProcesses_stdout _ _ _,
    by rw [h]; exact printProcesses_log _ _ _, ?_, ?_⟩
  · intro p s hp hs
    exact List.mem_filterMap.mpr ⟨p, hp, by simp [jsonLine, hs]⟩
  · clear hps hg h
    induction ps with
    | nil => rfl
    | cons p rest ih =>
      cases hm : MarshalJSON p with
      | ok s => simp [List.filterMap_cons, List.filter_cons, jsonLine, hm, Except.toBool, ih]
      | error e => simp [List.filterMap_cons, List.filter_cons, jsonLine, hm, Except.toBool, ih]

/-- C2 at a concrete response: three records of which the middle one fails. -/
theorem C2_records_printed_witness :
    (dumpProcessCache (fun p => if p.pid = 2 then .error "bad" else .ok (Nat.repr p.pid)) false
        (fun _ => (some ⟨CONFIG_FLAG_DUMP_PROCESS_CACHE,
          some (.processes (some ⟨[⟨1, 0⟩, ⟨2, 1⟩, ⟨3, 1⟩]⟩))⟩, none)) World.init).2.stdout
      = "1\n3\n" := by
  have h := (C2_records_printed_in_order_failures_skipped
    (fun p => if p.pid = 2 then .error "bad" else .ok (Nat.repr p.pid)) false
    (fun _ => (some ⟨CONFIG_FLAG_DUMP_PROCESS_CACHE,
      some (.processes (some ⟨[⟨1, 0⟩, ⟨2, 1⟩, ⟨3, 1⟩]⟩))⟩, none))
    ⟨CONFIG_FLAG_DUMP_PROCESS_CACHE, some (.processes (some ⟨[⟨1, 0⟩, ⟨2, 1⟩, ⟨3, 1⟩]⟩))⟩
    [⟨1, 0⟩, ⟨2, 1⟩, ⟨3, 1⟩] World.init rfl rfl rfl).2.1
  rw [h]
  decide

/-- C10: the dumpProcessCache callback faults on outcomes of the debug call that
the claim calls fault-free. When GetDebug fails and returns a nil response, the
read of res.Flag is a nil dereference; when the response carries the matching
selector and its payload is absent, is the other variant, or is a nil process
list, the read of the Processes field of the nil result of GetProcesses is a nil
dereference. In each case the run ends in a panic, with nothing printed. -/
theorem C10_callback_panics_on_nil_response_or_payload
    (MarshalJSON : ProcessInternal → Except Err String) (skipZeroRefCnt : Bool)
    (err : Err) (l : Int) (w : World) :
    dumpProcessCache MarshalJSON skipZeroRefCnt (fun _ => (none, some err)) w = (.panic, w)
      ∧ dumpProcessCache MarshalJSON skipZeroRefCnt
          (fun _ => (some ⟨CONFIG_FLAG_DUMP_PROCESS_CACHE, none⟩, none)) w = (.panic, w)
      ∧ dumpProcessCache MarshalJSON skipZeroRefCnt
          (fun _ => (some ⟨CONFIG_FLAG_DUMP_PROCESS_CACHE, some (.level l)⟩, none)) w
          = (.panic, w)
      ∧ dumpProcessCache MarshalJSON skipZeroRefCnt
          (fun _ => (some ⟨CONFIG_FLAG_DUMP_PROCESS_CACHE, some (.processes none)⟩, none)) w
          = (.panic, w) :=
  ⟨rfl, rfl, rfl, rfl⟩

/-! ## The skip-zero-refcount flag -/

/-- C8 as stated fails: with "skip zero refcount" requested and a response that
mixes a zero-refcount record (pid 1) with a non-zero one (pid 2), the callback
prints both records, not the non-zero subset. -/
theorem C8_counterexample_zero_refcount_record_is_printed :
    (dumpProcessCache (fun p => .ok (Nat.repr p.pid)) true
        (fun _ => (some ⟨CONFIG_FLAG_DUMP_PROCESS_CACHE,
          some (.processes (some ⟨[⟨1, 0⟩, ⟨2, 1⟩]⟩))⟩, none)) World.init).2.stdout = "1\n2\n"
      ∧ concat ((specSkipZeroRefCnt [⟨1, 0⟩, ⟨2, 1⟩]).filterMap
          (jsonLine (fun p => .ok (Nat.repr p.pid)))) = "2\n"
      ∧ ¬ ((dumpProcessCache (fun p => .ok (Nat.repr p.pid)) true
            (fun _ => (some ⟨CONFIG_FLAG_DUMP_PROCESS_CACHE,
              some (.processes (some ⟨[⟨1, 0⟩, ⟨2, 1⟩]⟩))⟩, none)) World.init).2.stdout
          = concat ((specSkipZeroRefCnt [⟨1, 0⟩, ⟨2, 1⟩]).filterMap
              (jsonLine (fun p => .ok (Nat.repr p.pid))))) := by
  decide

/-- C8 amended: the flag is only forwarded. The callback calls GetDebug with the
request whose argument carries SkipZeroRefCnt as given, and for a response with
the matching selector and process list ps it prints, in order, every record of
ps that marshals, whatever its reference count and whatever the flag. When the
response holds no zero-refcount record, what is printed is the output for the
non-zero subset; in general what is printed equals the output for the non-zero
subset if and only if every zero-refcount record of the response fails
MarshalJSON. -/
theorem C8_flag_is_forwarded_and_no_client_filter
    (MarshalJSON : ProcessInternal → Except Err String) (skipZeroRefCnt : Bool)
    (cli : FineGuidanceSensorsClient) (r : GetDebugResponse) (ps : List ProcessInternal)
    (w : World)
    (hres : (cli ⟨CONFIG_FLAG_DUMP_PROCESS_CACHE, some ⟨skipZeroRefCnt⟩⟩).1 = some r)
    (hflag : r.Flag = CONFIG_FLAG_DUMP_PROCESS_CACHE)
    (hps : r.Res = some (.processes (some ⟨ps⟩))) :
    dumpProcessCache MarshalJSON skipZeroRefCnt cli w
        = handleResponse MarshalJSON
            (cli ⟨CONFIG_FLAG_DUMP_PROCESS_CACHE, some ⟨skipZeroRefCnt⟩⟩).1 w
      ∧ (dumpProcessCache MarshalJSON skipZeroRefCnt cli w).2.stdout
          = w.stdout ++ concat (ps.filterMap (jsonLine MarshalJSON))
      ∧ (dumpProcessCache MarshalJSON skipZeroRefCnt cli w).2.stdout
          = (dumpProcessCache MarshalJSON (!skipZeroRefCnt) (fun _ => (some r, none)) w).2.stdout
      ∧ (specSkipZeroRefCnt ps = ps →
          (dumpProcessCache MarshalJSON skipZeroRefCnt cli w).2.stdout
            = w.stdout ++ concat ((specSkipZeroRefCnt ps).filterMap (jsonLine MarshalJSON)))
      ∧ ((dumpProcessCache MarshalJSON skipZeroRefCnt cli w).2.stdout
            = w.stdout ++ concat ((specSkipZeroRefCnt ps).filterMap (jsonLine MarshalJSON))
          ↔ ∀ p ∈ ps, p.refcnt = 0 → ∃ err, MarshalJSON p = .error err) := by
  have hg : r.GetProcesses = some ⟨ps⟩ := by simp [GetDebugResponse.GetProcesses, hps]
  have h : ∀ (b : Bool) (c : FineGuidanceSensorsClient),
      (c ⟨CONFIG_FLAG_DUMP_PROCESS_CACHE, some ⟨b⟩⟩).1 = some r →
      (dumpProcessCache MarshalJSON b c w).2.stdout
        = w.stdout ++ concat (ps.filterMap (jsonLine MarshalJSON)) := by
    intro b c hc
    simp only [dumpProcessCache, mkRequest, hc, handleResponse, if_pos hflag, hg]
    exact printProcesses_stdout _ _ _
  refine ⟨rfl, h _ _ hres, ?_, ?_, ?_⟩
  · rw [h _ _ hres, h _ _ rfl]
  · intro hall
    rw [hall]
    exact h _ _ hres
  · rw [h _ _ hres]
    constructor
    · intro heq p hp hz
      exact (jsonLine_eq_none_iff _ _).mp
        ((concat_skipZero_eq_iff _ _).mp (string_append_left_cancel heq) p hp hz)
    · intro hall
      rw [(concat_skipZero_eq_iff MarshalJSON ps).mpr
        (fun p hp hz => (jsonLine_eq_none_iff _ _).mpr (hall p hp hz))]

/-- C8 amended, at a concrete response mixing zero and non-zero refcounts. -/
theorem C8_flag_is_forwarded_witness :
    (dumpProcessCache (fun p => .ok (Nat.repr p.pid)) true
        (fun req => (some ⟨req.Flag, some (.processes (some ⟨[⟨1, 0⟩, ⟨2, 1⟩]⟩))⟩, none))
        World.init).2.stdout
      = World.init.stdout
          ++ concat ([⟨1, 0⟩, ⟨2, 1⟩].filterMap (jsonLine (fun p => .ok (Nat.repr p.pid)))) :=
  (C8_flag_is_forwarded_and_no_client_filter (fun p => .ok (Nat.repr p.pid)) true
    (fun req => (some ⟨req.Flag, some (.processes (some ⟨[⟨1, 0⟩, ⟨2, 1⟩]⟩))⟩, none))
    ⟨CONFIG_FLAG_DUMP_PROCESS_CACHE, some (.processes (some ⟨[⟨1, 0⟩, ⟨2, 1⟩]⟩))⟩
    [⟨1, 0⟩, ⟨2, 1⟩] World.init rfl rfl rfl).2.1

/-! ## Table dumps: open failure, empty tables, iteration errors, handles -/

/-- C7: when opening the table at the given path fails, each of dumpExecveMap,
PolicyfilterState and NamespaceState leaves standard output as it was;
dumpExecveMap and PolicyfilterState end in a fatal error after logging it, and
NamespaceState logs one warning and returns exactly the open error. -/
theorem C7_open_failure_prints_nothing {K V : Type} [DecidableEq K]
    (fmtKey : K → String) (fmtVal : V → String) (efs : Bpffs K V) (pfs : PfFs)
    (nfs : Bpffs Nat Nat) (ord : RangeOrder) (fname : String) (e1 e2 e3 : Err) (w : World)
    (h1 : efs fname = .error e1) (h2 : pfs fname = .error e2) (h3 : nfs fname = .error e3) :
    (dumpExecveMap fmtKey fmtVal efs ord fname w
        = (.fatal, w.logf ⟨.Fatal, "failed to open execve map", some e1, none⟩)
      ∧ (dumpExecveMap fmtKey fmtVal efs ord fname w).2.stdout = w.stdout)
    ∧ (PolicyfilterState pfs ord fname w
        = (.fatal, w.logf ⟨.Fatal, "Failed to open policyfilter map", some e2, none⟩)
      ∧ (PolicyfilterState pfs ord fname w).2.stdout = w.stdout)
    ∧ (NamespaceState nfs fname w
        = (.returned (some e3),
            w.logf ⟨.Warn, "Could not open process tree map", some e3,
              some ("file", .file fname)⟩)
      ∧ (NamespaceState nfs fname w).2.stdout = w.stdout) := by
  have a : dumpExecveMap fmtKey fmtVal efs ord fname w
      = (.fatal, w.logf ⟨.Fatal, "failed to open execve map", some e1, none⟩) := by
    simp only [dumpExecveMap, h1]
  have b : PolicyfilterState pfs ord fname w
      = (.fatal, w.logf ⟨.Fatal, "Failed to open policyfilter map", some e2, none⟩) := by
    simp only [PolicyfilterState, h2]
  have c : NamespaceState nfs fname w
      = (.returned (some e3),
          w.logf ⟨.Warn, "Could not open process tree map", some e3,
            some ("file", .file fname)⟩) := by
    simp only [NamespaceState, h3]
  exact ⟨⟨a, by rw [a]; rfl⟩, ⟨b, by rw [b]; rfl⟩, ⟨c, by rw [c]; rfl⟩⟩

/-- C7 at a concrete path that no table is pinned at. -/
theorem C7_open_failure_witness :
    (dumpExecveMap (K := Nat) (V := Nat) Nat.repr Nat.repr (fun _ => .error "no such file")
        RangeOrder.id "/sys/fs/bpf/tetragon/execve_map" World.init).2.stdout = ""
      ∧ (PolicyfilterState (fun _ => .error "no such file") RangeOrder.id
          "/sys/fs/bpf/tetragon/execve_map" World.init).2.stdout = ""
      ∧ (NamespaceState (fun _ => .error "no such file")
          "/sys/fs/bpf/tetragon/execve_map" World.init).1 = .returned (some "no such file") := by
  have h := C7_open_failure_prints_nothing (K := Nat) (V := Nat) Nat.repr Nat.repr
    (fun _ => .error "no such file") (fun _ => .error "no such file")
    (fun _ => .error "no such file") RangeOrder.id "/sys/fs/bpf/tetragon/execve_map"
    "no such file" "no such file" "no such file" World.init rfl rfl rfl
  exact ⟨h.1.2, h.2.1.2, by rw [h.2.2.1]⟩

/-- C4: on a table with zero entries the empty-state output of dumpExecveMap is
the text "(empty)" with no line terminator, while PolicyfilterState prints the
line "(empty)" with its newline, so the two do not print the same sentinel;
NamespaceState prints just the header line and returns nil. -/
theorem C4_empty_sentinel_of_execve_lacks_newline {K V : Type} [DecidableEq K]
    (fmtKey : K → String) (fmtVal : V → String) (ord : RangeOrder) (fname : String) :
    dumpExecveMap fmtKey fmtVal (fun _ => .ok ⟨[], none⟩) ord fname World.init
        = (.returned (), ⟨"(empty)", [], [fname]⟩)
      ∧ PolicyfilterState (fun _ => .ok ⟨.ok GoMap.empty⟩) ord fname World.init
        = (.returned (), ⟨"(empty)\n", [], []⟩)
      ∧ (dumpExecveMap fmtKey fmtVal (fun _ => .ok ⟨[], none⟩) ord fname World.init).2.stdout
        ≠ (PolicyfilterState (fun _ => .ok ⟨.ok GoMap.empty⟩) ord fname World.init).2.stdout
      ∧ NamespaceState (fun _ => .ok ⟨[], none⟩) fname World.init
        = (.returned none, ⟨"cgroupId: stableId\n", [], []⟩) := by
  have a : dumpExecveMap fmtKey fmtVal (fun _ => .ok ⟨[], none⟩) ord fname World.init
      = (.returned (), ⟨"(empty)", [], [fname]⟩) := by
    simp [dumpExecveMap, collect, GoMap.len, GoMap.empty, World.init, World.opened, World.printf]
  have b : PolicyfilterState (fun _ => .ok ⟨.ok GoMap.empty⟩) ord fname World.init
      = (.returned (), ⟨"(empty)\n", [], []⟩) := by
    simp [PolicyfilterState, GoMap.len, GoMap.empty, World.init, World.opened, World.printf,
      World.closed]
  refine ⟨a, b, ?_, ?_⟩
  · rw [a, b]
    show "(empty)" ≠ "(empty)\n"
    decide
  · simp [NamespaceState, printPairs, World.init, World.opened, World.printf, World.closed]

/-- C6: NamespaceState does not report an iteration error. When the iterator
stops with an error after yielding the pairs ys, the run is the same as the run
on a table that yields ys and is then exhausted: the header and one line per
pair read so far are printed and nil is returned; on the table that yields
(1, 2) and then fails, the output is the header and the line "1: 2". For
dumpExecveMap the same table ends in a fatal error with nothing printed. -/
theorem C6_namespace_iteration_error_returns_nil
    (ys : List (Nat × Nat)) (err : Err) (fname : String) (w : World) (ord : RangeOrder) :
    NamespaceState (fun _ => .ok ⟨ys, some err⟩) fname w
        = NamespaceState (fun _ => .ok ⟨ys, none⟩) fname w
      ∧ (NamespaceState (fun _ => .ok ⟨ys, some err⟩) fname w).1 = .returned none
      ∧ (NamespaceState (fun _ => .ok ⟨ys, some err⟩) fname w).2.stdout
          = w.stdout ++ ("cgroupId: stableId\n" ++ concat (ys.map pairLine))
      ∧ NamespaceState (fun _ => .ok ⟨[(1, 2)], some err⟩) fname World.init
          = (.returned none, ⟨"cgroupId: stableId\n1: 2\n", [], []⟩)
      ∧ (dumpExecveMap Nat.repr Nat.repr (fun _ => .ok ⟨ys, some err⟩) ord fname w).1 = .fatal
      ∧ (dumpExecveMap Nat.repr Nat.repr (fun _ => .ok ⟨ys, some err⟩) ord fname w).2.stdout
          = w.stdout := by
  refine ⟨rfl, rfl, ?_, ?_, rfl, rfl⟩
  · simp [NamespaceState, printPairs_stdout, String.append_assoc]
  · simp [NamespaceState, printPairs, World.init, World.opened, World.printf, World.closed]
    decide

/-- C9: dumpExecveMap never closes the table handle. After a successful open and
an iteration without error, on the empty-table early return as on the normal
return, the run returns with the handle still open; NamespaceState, and
PolicyfilterState when the dump succeeds, return with the handle closed, and
PolicyfilterState when the dump fails ends the process in Fatal before the
deferred Close has run. -/
theorem C9_execve_handle_left_open {K V : Type} [DecidableEq K]
    (fmtKey : K → String) (fmtVal : V → String) (ys : List (K × V)) (ord : RangeOrder)
    (fname : String) (ns : Table Nat Nat) (data : GoMap PolicyID (GoMap CgroupID Unit)) :
    (dumpExecveMap fmtKey fmtVal (fun _ => .ok ⟨ys, none⟩) ord fname World.init).1
        = .returned ()
      ∧ (dumpExecveMap fmtKey fmtVal (fun _ => .ok ⟨ys, none⟩) ord fname World.init).2.handles
        = [fname]
      ∧ (NamespaceState (fun _ => .ok ns) fname World.init).2.handles = []
      ∧ (PolicyfilterState (fun _ => .ok ⟨.ok data⟩) ord fname World.init).2.handles = []
      ∧ ∀ err : Err, PolicyfilterState (fun _ => .ok ⟨.error err⟩) ord fname World.init
          = (.fatal, ⟨"", [⟨.Fatal, "Failed to open policyfilter map", some err, none⟩],
              [fname]⟩) := by
  refine ⟨?_, ?_, ?_, ?_, fun _ => rfl⟩
  · simp only [dumpExecveMap]
    split <;> rfl
  · simp only [dumpExecveMap]
    split
    · rfl
    · simp [(printExecve_log_handles _ _ _ _).2, World.init]
  · simp [NamespaceState, (printPairs_log_handles _ _).2, World.init]
  · simp only [PolicyfilterState]
    split
    · simp [World.init]
    · simp [(printPolicies_log_handles _ _ _ _).2, World.init]

/-! ## Presentation of non-empty tables -/

/-- C3: for dumpExecveMap on a table that opens and whose iterator yields a
non-empty sequence of pairs and then finishes without error, the run returns
normally and what is appended to standard output is the concatenation of the
lines "<key> <value>" and newline of a list es of entries with pairwise distinct
keys, where (k, v) is in es exactly when (k, v) is the last pair yielded for k,
and the keys of es are the yielded keys. When the yielded keys are pairwise
distinct, es is a rearrangement of the yielded pairs, so N pairs give N lines;
for the pairs (k1, a), (k2, b) with k1 and k2 different the output is the two
lines for k1 and k2, in one of the two orders. -/
theorem C3_execve_one_line_per_distinct_key {K V : Type} [DecidableEq K]
    (fmtKey : K → String) (fmtVal : V → String) (fs : Bpffs K V) (ord : RangeOrder)
    (fname : String) (w : World) (t : Table K V)
    (hopen : fs fname = .ok t) (herr : t.err = none) (hne : t.yields ≠ []) :
    ∃ es : List (K × V),
      (dumpExecveMap fmtKey fmtVal fs ord fname w).1 = .returned ()
        ∧ (dumpExecveMap fmtKey fmtVal fs ord fname w).2.stdout
            = w.stdout ++ concat (es.map (execveLine fmtKey fmtVal))
        ∧ (es.map Prod.fst).Nodup
        ∧ (∀ k v, (k, v) ∈ es ↔ IsLastYield t.yields k v)
        ∧ (∀ k, k ∈ es.map Prod.fst ↔ k ∈ t.yields.map Prod.fst)
        ∧ ((t.yields.map Prod.fst).Nodup → es.Perm t.yields ∧ es.length = t.yields.length)
        ∧ (∀ k1 k2 a b, k1 ≠ k2 → t.yields = [(k1, a), (k2, b)] →
            (dumpExecveMap fmtKey fmtVal fs ord fname w).2.stdout
                = w.stdout ++ (execveLine fmtKey fmtVal (k1, a) ++ execveLine fmtKey fmtVal (k2, b))
              ∨ (dumpExecveMap fmtKey fmtVal fs ord fname w).2.stdout
                = w.stdout
                  ++ (execveLine fmtKey fmtVal (k2, b) ++ execveLine fmtKey fmtVal (k1, a))) := by
  have hmem : ∀ k v, (k, v) ∈ ord.perm _ 0 (collect (GoMap.empty : GoMap K V) t.yields).entries
      ↔ IsLastYield t.yields k v := by
    intro k v
    rw [(ord.isPerm _ 0 _).mem_iff, collect_empty_mem]
  have hkeys : ((ord.perm _ 0 (collect (GoMap.empty : GoMap K V) t.yields).entries).map
      Prod.fst).Nodup :=
    ((ord.isPerm _ 0 _).map Prod.fst).nodup_iff.mpr (collect GoMap.empty t.yields).nodup
  have hlen : ¬ (collect (GoMap.empty : GoMap K V) t.yields).len = 0 := by
    obtain ⟨e, he⟩ := List.exists_mem_of_ne_nil _ hne
    obtain ⟨v, hv⟩ := exists_isLastYield_of_mem_keys t.yields e.1 (List.mem_map_of_mem _ he)
    have := (collect_empty_mem t.yields e.1 v).mpr hv
    intro h0
    rw [GoMap.len, List.length_eq_zero] at h0
    rw [h0] at this
    simp at this
  have hrun : dumpExecveMap fmtKey fmtVal fs ord fname w
      = (.returned (), printExecve fmtKey fmtVal (w.opened fname)
          (ord.perm _ 0 (collect (GoMap.empty : GoMap K V) t.yields).entries)) := by
    simp only [dumpExecveMap, hopen, herr, if_neg hlen]
  have hout : (dumpExecveMap fmtKey fmtVal fs ord fname w).2.stdout
      = w.stdout ++ concat ((ord.perm _ 0
          (collect (GoMap.empty : GoMap K V) t.yields).entries).map
            (execveLine fmtKey fmtVal)) := by
    rw [hrun]
    simp only [printExecve_stdout, opened_stdout]
  have hperm : (t.yields.map Prod.fst).Nodup →
      (ord.perm _ 0 (collect (GoMap.empty : GoMap K V) t.yields).entries).Perm t.yields := by
    intro hnd
    classical
    refine (List.perm_ext_iff_of_nodup (List.Nodup.of_map _ hkeys)
      (List.Nodup.of_map _ hnd)).mpr ?_
    rintro ⟨k, v⟩
    rw [hmem, isLastYield_iff_mem_of_nodup _ hnd]
  refine ⟨_, by rw [hrun], hout, hkeys, hmem, ?_, ?_, ?_⟩
  · intro k
    constructor
    · intro hk
      obtain ⟨e, he, rfl⟩ := List.mem_map.mp hk
      exact List.mem_map_of_mem _ (isLastYield_mem ((hmem e.1 e.2).mp he))
    · intro hk
      obtain ⟨v, hv⟩ := exists_isLastYield_of_mem_keys t.yields k hk
      exact List.mem_map.mpr ⟨(k, v), (hmem k v).mpr hv, rfl⟩
  · intro hnd
    exact ⟨hperm hnd, (hperm hnd).length_eq⟩
  · intro k1 k2 a b hk hys
    have hnd : (t.yields.map Prod.fst).Nodup := by
      rw [hys]
      simp [hk]
    have hp := (hperm hnd).trans (List.Perm.of_eq hys)
    rw [hout]
    rcases perm_pair hp with h | h
    · left; rw [h]; simp
    · right; rw [h]; simp

/-- C3 at the table yielding (1, A) and (2, B), visited in reverse order. -/
theorem C3_execve_two_entries_witness :
    (dumpExecveMap Nat.repr (fun s : String => s) (fun _ => .ok ⟨[(1, "A"), (2, "B")], none⟩)
        RangeOrder.rev "/sys/fs/bpf/tetragon/execve_map" World.init).2.stdout
        = "" ++ ("1 A\n" ++ "2 B\n")
      ∨ (dumpExecveMap Nat.repr (fun s : String => s) (fun _ => .ok ⟨[(1, "A"), (2, "B")], none⟩)
        RangeOrder.rev "/sys/fs/bpf/tetragon/execve_map" World.init).2.stdout
        = "" ++ ("2 B\n" ++ "1 A\n") := by
  obtain ⟨es, -, -, -, -, -, -, h⟩ := C3_execve_one_line_per_distinct_key Nat.repr
    (fun s : String => s) (fun _ => .ok ⟨[(1, "A"), (2, "B")], none⟩) RangeOrder.rev
    "/sys/fs/bpf/tetragon/execve_map" World.init ⟨[(1, "A"), (2, "B")], none⟩ rfl rfl
    (by decide)
  exact h 1 2 "A" "B" (by decide) rfl

/-- C5: for PolicyfilterState on a table that opens and whose dump is a non-empty
state, the run returns normally and what is appended to standard output is one
line per policy of the state, the policies taken in some order: the line of
policy p is the decimal p, then ": ", then the decimal cgroup ids of p joined by
",", the ids taken in some order with every member exactly once, then a newline.
For the state with the single policy 7 whose members are 10 and 20 the output is
the line "7: 10,20" or the line "7: 20,10". -/
theorem C5_policyfilter_one_line_per_policy (fs : PfFs) (ord : RangeOrder) (fname : String)
    (w : World) (m : PfMap) (data : GoMap PolicyID (GoMap CgroupID Unit))
    (hopen : fs fname = .ok m) (hdump : m.dump = .ok data) (hne : data.len ≠ 0) :
    (∃ (es : List (PolicyID × GoMap CgroupID Unit)) (lines : List String),
      (PolicyfilterState fs ord fname w).1 = .returned ()
        ∧ (PolicyfilterState fs ord fname w).2.stdout = w.stdout ++ concat lines
        ∧ es.Perm data.entries
        ∧ lines.length = data.len
        ∧ List.Forall₂
            (fun (e : PolicyID × GoMap CgroupID Unit) (line : String) =>
              ∃ ids : List CgroupID, ids.Perm e.2.keys ∧ ids.Nodup ∧ line = policyLine e.1 ids)
            es lines)
      ∧ (∀ cg : GoMap CgroupID Unit, data.entries = [(7, cg)] → cg.keys.Perm [10, 20] →
          (PolicyfilterState fs ord fname w).2.stdout = w.stdout ++ "7: 10,20\n"
            ∨ (PolicyfilterState fs ord fname w).2.stdout = w.stdout ++ "7: 20,10\n") := by
  have hrun : PolicyfilterState fs ord fname w
      = (.returned (),
          (printPolicies ord (w.opened fname) 1 (ord.perm _ 0 data.entries)).closed fname) := by
    simp only [PolicyfilterState, hopen, hdump, if_neg hne]
  obtain ⟨lines, h1, h2⟩ :=
    printPolicies_stdout ord (ord.perm _ 0 data.entries) 1 (w.opened fname)
  have hout : (PolicyfilterState fs ord fname w).2.stdout = w.stdout ++ concat lines := by
    rw [hrun]
    simpa using h1
  have hp := ord.isPerm _ 0 data.entries
  refine ⟨⟨_, lines, by rw [hrun], hout, hp, ?_, h2⟩, ?_⟩
  · rw [← h2.length_eq, hp.length_eq, GoMap.len]
  · intro cg hd hcg
    have e1 : concat [policyLine 7 [10, 20]] = "7: 10,20\n" := by decide
    have e2 : concat [policyLine 7 [20, 10]] = "7: 20,10\n" := by decide
    rw [List.perm_singleton.mp (hp.trans (List.Perm.of_eq hd))] at h2
    obtain ⟨line, rest, ⟨ids, hids, -, hline⟩, hrest, hl⟩ := List.forall₂_cons_left_iff.mp h2
    rw [List.forall₂_nil_left_iff.mp hrest] at hl
    rw [hout, hl, hline]
    rcases perm_pair (hids.trans hcg) with h | h
    · left
      rw [h]
      exact congrArg (fun s => w.stdout ++ s) e1
    · right
      rw [h]
      exact congrArg (fun s => w.stdout ++ s) e2

/-- C5 at the state with policy 7 and members 10 and 20, visited in reverse order. -/
theorem C5_policyfilter_scenario_witness :
    (PolicyfilterState
        (fun _ => .ok ⟨.ok ⟨[(7, ⟨[(10, ()), (20, ())], by decide⟩)], by decide⟩⟩)
        RangeOrder.rev "/sys/fs/bpf/tetragon/policy_filter_maps" World.init).2.stdout
        = "" ++ "7: 10,20\n"
      ∨ (PolicyfilterState
        (fun _ => .ok ⟨.ok ⟨[(7, ⟨[(10, ()), (20, ())], by decide⟩)], by decide⟩⟩)
        RangeOrder.rev "/sys/fs/bpf/tetragon/policy_filter_maps" World.init).2.stdout
        = "" ++ "7: 20,10\n" :=
  (C5_policyfilter_one_line_per_policy
    (fun _ => .ok ⟨.ok ⟨[(7, ⟨[(10, ()), (20, ())], by decide⟩)], by decide⟩⟩)
    RangeOrder.rev "/sys/fs/bpf/tetragon/policy_filter_maps" World.init
    ⟨.ok ⟨[(7, ⟨[(10, ()), (20, ())], by decide⟩)], by decide⟩⟩
    ⟨[(7, ⟨[(10, ()), (20, ())], by decide⟩)], by decide⟩ rfl rfl (by decide)).2
    ⟨[(10, ()), (20, ())], by decide⟩ rfl (List.Perm.refl _)

end Dump
